import Mathlib

/-!
Verification development for the RCA_TOOL repository.

The repository ships a React frontend (under src/frontend and the unnamed
parts) together with a README describing the Flask RCA engine.  The engine
itself (normalizer, SLA evaluator, threshold scanner, correlator, summarizer,
assembler) is not part of the source tree; where a claim depends on it, the
corresponding definitions are modelled from the specification and marked as
such in their documentation.  Times are modelled as integer minutes (or
milliseconds where the frontend works with epoch milliseconds) and metric
values as rationals.
-/

namespace RcaTool

/-! ### Frontend data model, from src/frontend/src/types/index.ts -/

/-- SLAStatus object exchanged with the backend, from
src/frontend/src/types/index.ts lines 55 to 62 (identical in part_006 lines
94 to 101): the verdict is carried by the single boolean field breached;
there is no further status field. -/
structure SLAStatus where
  breached : Bool
  duration_hours : ℚ
  expected_hours : ℚ
  excess_hours : ℚ
  arrival_time : String
  completion_time : String
deriving DecidableEq

/-- Verdict text rendered by SimpleMessageBubble (part_004, line 156): the
badge prints Breached when the breached flag is set and Met otherwise. -/
def slaStatusLabel (s : SLAStatus) : String :=
  if s.breached then "Breached" else "Met"

/-- SLA breach flag computed by CompactTimeline (part_002, line 89):
processingDuration strictly greater than slaHours. -/
def slaBreachedFlag (processingDuration slaHours : ℚ) : Bool :=
  decide (processingDuration > slaHours)

/-- Value of the slaHours parameter: CompactTimeline defaults it to 3 and
SimpleMessageBubble passes slaHours 3 explicitly (part_004 line 207). -/
def slaHoursDefault : ℚ := 3

/-! ### Date extraction, from SimpleChatInterface.tsx lines 50 to 69 -/

/-- Identifiers of the four date regexes tried by extractDateFromQuery,
in order: day-month-year, august-day, iso-date, cob-day-month. -/
def datePatterns : List ℕ := [0, 1, 2, 3]

/-- Date extraction from SimpleChatInterface.tsx lines 50 to 69.  The regex
engine is abstracted as the argument pmatch; the code returns the constant
default date from the match branch as well as from the fall-through. -/
def extractDateFromQuery (pmatch : ℕ → String → Bool) (query : String) : String :=
  if datePatterns.any (fun p => pmatch p query) then
    "2025-08-01"
  else
    "2025-08-01"

/-- Default value of the date parameter of sendChatMessage, from part_005
lines 13 to 16. -/
def sendChatMessageDefaultDate : String := "2025-08-01"

/-! ### Frontend timeline events, from TimelineGraph.tsx and part_003.
The timestamp string of an event is modelled by its parsed epoch instant in
milliseconds. -/

/-- Frontend timeline event as consumed by the rendering components; ts is
the parsed epoch instant of the timestamp string, in milliseconds. -/
structure FEvent where
  ts : ℤ
  label : String
deriving DecidableEq

/-- Comparison used by the sort comparator of TimelineGraph.tsx lines 154
to 159 (dateA minus dateB on parsed instants). -/
def feLe (a b : FEvent) : Prop := a.ts ≤ b.ts

instance : DecidableRel feLe := fun a b => inferInstanceAs (Decidable (a.ts ≤ b.ts))

instance : IsTotal FEvent feLe := ⟨fun a b => Int.le_total a.ts b.ts⟩

instance : IsTrans FEvent feLe := ⟨fun _ _ _ h1 h2 => le_trans h1 h2⟩

/-- sortedEvents from TimelineGraph.tsx lines 154 to 159: the events are
sorted ascending by parsed timestamp before rendering (the stable JS sort is
modelled by insertion sort). -/
def tgSortedEvents (events : List FEvent) : List FEvent :=
  List.insertionSort feLe events

/-- Render order of the Timeline component (part_003, lines 95 to 181): the
events are mapped in the order received; no sorting is applied. -/
def timelineRenderOrder (events : List FEvent) : List FEvent := events

/-- Total Duration figure of TimelineGraph.tsx lines 316 to 332: when at
least two events are present, the difference between the last and the first
element of the input array, converted from milliseconds to hours; otherwise
no value (the component prints N/A). -/
def tgTotalDurationHrs (events : List FEvent) : Option ℚ :=
  if events.length < 2 then none
  else
    match events.head?, events.getLast? with
    | some s, some e => some (((e.ts - s.ts : ℤ) : ℚ) / (1000 * 60 * 60))
    | _, _ => none

/-- Chronological span of the events: the Total Duration figure computed on
the chronologically sorted sequence. -/
def chronologicalSpanHrs (events : List FEvent) : Option ℚ :=
  tgTotalDurationHrs (tgSortedEvents events)

/-! ### Timestamp parsing, from TimelineGraph.tsx lines 49 to 82 and
CompactTimeline (part_002) lines 91 to 102.

A timestamp string is modelled by the wall-clock minutes it spells out, the
explicit zone offset it carries (none when timezone-naive), and the surface
features inspected by the two formatTime functions: whether the string
contains a T separator, ends with Z, contains a plus sign, or contains a
dash.  An ISO date such as 2025-08-01 always contains dashes. -/

/-- Shallow model of a timestamp string; wall and mark are in minutes. -/
structure TsStr where
  wall : ℤ
  mark : Option ℤ
  hasT : Bool
  endsWithZ : Bool
  hasPlus : Bool
  hasDash : Bool
deriving DecidableEq

/-- JavaScript Date parsing of a date-time string: an explicit zone offset
is subtracted from the wall clock; a timezone-naive date-time string is
interpreted in the host timezone, whose offset from UTC is hostOff minutes. -/
def jsParseInstant (t : TsStr) (hostOff : ℤ) : ℤ :=
  t.wall - (t.mark.getD hostOff)

/-- formatTime of TimelineGraph.tsx lines 49 to 82, returning the displayed
minutes.  Strings with a T separator that end in Z, or that contain a plus or
a dash, are passed to Date unchanged; only the remaining T strings get a Z
appended; strings without T get the space replaced by T and a Z appended.
The result is rendered with the getUTC accessors, so the displayed digits are
the UTC reading of the parsed instant. -/
def tgFormatTime (t : TsStr) (hostOff : ℤ) : ℤ :=
  if t.hasT then
    if t.endsWithZ then jsParseInstant t hostOff
    else if t.hasPlus || t.hasDash then jsParseInstant t hostOff
    else jsParseInstant { t with mark := some 0 } hostOff
  else
    jsParseInstant { t with mark := some 0 } hostOff

/-- Instant produced by the formatTime of CompactTimeline (part_002 lines 91
to 102): the replacement of Z by the offset plus-zero-zero leaves the denoted
zone unchanged, so the string is parsed by Date as written. -/
def ctParsedInstant (t : TsStr) (hostOff : ℤ) : ℤ :=
  jsParseInstant t hostOff

/-- Displayed minutes of the formatTime of CompactTimeline: the parsed
instant is rendered with toLocaleTimeString, which prints host-local time. -/
def ctFormatTime (t : TsStr) (hostOff : ℤ) : ℤ :=
  ctParsedInstant t hostOff + hostOff

/-! ### RCA engine data model.

The engine itself lives in the Flask backend, which is not part of the
source tree; the definitions below are modelled from the specification and
from the threshold table printed in the repository README (part_000).
All times are integer minutes. -/

/-- Modelled from the spec: TriggerEvent record of the data model (spec 3),
the marker event whose arrival starts the SLA clock. -/
structure TriggerEvent where
  scheduled_time : ℤ
  actual_arrival_time : ℤ
  name : String
deriving DecidableEq

/-- Modelled from the spec: JobRun record of the data model (spec 3); a
missing end time marks a run still in flight. -/
structure JobRun where
  run_id : String
  start_time : ℤ
  end_time : Option ℤ
  status : String
deriving DecidableEq

/-- Modelled from the spec: the three infrastructure telemetry domains
(compute-orchestration, relational-storage, queueing), in the fixed priority
order of spec 4.4. -/
inductive Domain
  | eks
  | rds
  | sqs
deriving DecidableEq

/-- Modelled from the spec: one telemetry reading (spec 3). -/
structure Sample where
  timestamp : ℤ
  domain : Domain
  metric_name : String
  value : ℚ
deriving DecidableEq

/-- Modelled from the spec: warning and critical levels of one metric. -/
structure Threshold where
  warning : ℚ
  critical : ℚ
deriving DecidableEq

/-- Modelled from the spec: breach severity (spec 3). -/
inductive Severity
  | warning
  | critical
deriving DecidableEq

/-- Modelled from the spec: one sample that crossed a threshold (spec 3). -/
structure Breach where
  timestamp : ℤ
  domain : Domain
  metric_name : String
  value : ℚ
  severity : Severity
deriving DecidableEq

/-- Threshold configuration table from the repository README (part_000,
Metric Thresholds section): per domain, the warning and critical levels of
each monitored metric. -/
def thresholdTable (d : Domain) (metric : String) : Option Threshold :=
  match d with
  | .eks =>
    if metric = "cpu_utilization" then some ⟨80, 90⟩
    else if metric = "memory_utilization" then some ⟨80, 90⟩
    else if metric = "pod_restarts" then some ⟨5, 10⟩
    else if metric = "dag_processing_time" then some ⟨30, 60⟩
    else none
  | .rds =>
    if metric = "cpu_utilization" then some ⟨90, 95⟩
    else if metric = "database_connections" then some ⟨200, 250⟩
    else if metric = "commit_latency" then some ⟨25, 50⟩
    else if metric = "select_latency" then some ⟨50, 100⟩
    else none
  | .sqs =>
    if metric = "message_age" then some ⟨300, 600⟩
    else if metric = "visible_messages" then some ⟨500, 1000⟩
    else if metric = "messages_received" then some ⟨1800, 4500⟩
    else none

/-- Modelled from the spec: classification rule of the Threshold Scanner
(spec 4.3): a value at or above critical is critical, else at or above
warning is warning, else no breach. -/
def classifyValue (th : Threshold) (v : ℚ) : Option Severity :=
  if v ≥ th.critical then some .critical
  else if v ≥ th.warning then some .warning
  else none

/-- Modelled from the spec: the Threshold Scanner (spec 4.3) scans every
sample whose timestamp lies in the closed processing window against the
configured threshold table; samples outside the window, or without a
configured threshold, yield no breach. -/
def scanSamples (arrival completion : ℤ) (samples : List Sample) : List Breach :=
  samples.filterMap (fun s =>
    if arrival ≤ s.timestamp ∧ s.timestamp ≤ completion then
      match thresholdTable s.domain s.metric_name with
      | some th =>
        (classifyValue th s.value).map
          (fun sev => ⟨s.timestamp, s.domain, s.metric_name, s.value, sev⟩)
      | none => none
    else none)

/-! ### SLA evaluation, modelled from spec 4.2 -/

/-- Modelled from the spec: processing duration in fractional hours, the
completion time minus the arrival time; times are minutes, so the duration
is the fraction of the difference over sixty. -/
def durationHours (arrival completion : ℤ) : ℚ :=
  mkRat (completion - arrival) 60

/-- Modelled from the spec: the fixed three-hour SLA limit. -/
def slaLimitHours : ℚ := 3

/-- Modelled from the spec: breach verdict of the SLA Evaluator, the strict
comparison of the duration against the limit. -/
def slaBreachedOf (arrival completion : ℤ) : Bool :=
  decide (durationHours arrival completion > slaLimitHours)

/-- Modelled from the spec: hours in excess of the limit, floored at zero. -/
def excessHoursOf (arrival completion : ℤ) : ℚ :=
  max 0 (durationHours arrival completion - slaLimitHours)

/-- Modelled from the spec: completion time of the bundle, the latest end
time among the job runs; undefined (incomplete window) when there is no job
run or some run lacks an end time. -/
def completionOf (runs : List JobRun) : Option ℤ :=
  if runs = [] then none
  else if runs.all (fun r => r.end_time.isSome) then
    (runs.filterMap (fun r => r.end_time)).max?
  else none

/-- Modelled from the spec: SLA verdict with an explicit incomplete value
distinct from met and from breached (spec 4.2). -/
inductive SlaVerdict
  | met
  | breachedVerdict
  | incomplete
deriving DecidableEq

/-! ### Correlation, modelled from spec 4.4 -/

/-- Modelled from the spec: identity of a cause referenced by the impact
annotation of a timeline event; an infrastructure cause is identified by the
domain and timestamp of its initiating breach. -/
inductive CauseRef
  | marker
  | infra (domain : Domain) (timestamp : ℤ)
deriving DecidableEq

/-- Modelled from the spec: causal role attributed to a breach. -/
inductive Role
  | rootCause
  | cascading
deriving DecidableEq

/-- Modelled from the spec: whether the trigger arrived later than its
scheduled time (marker delay). -/
def markerLate (t : TriggerEvent) : Bool :=
  decide (t.scheduled_time < t.actual_arrival_time)

/-- Ordering of breaches by timestamp, used for the chronological merge. -/
def breachLe (a b : Breach) : Prop := a.timestamp ≤ b.timestamp

instance : DecidableRel breachLe := fun a b => inferInstanceAs (Decidable (a.timestamp ≤ b.timestamp))

instance : IsTotal Breach breachLe := ⟨fun a b => Int.le_total a.timestamp b.timestamp⟩

instance : IsTrans Breach breachLe := ⟨fun _ _ _ h1 h2 => le_trans h1 h2⟩

/-- Modelled from the spec: chronological stable sort of the breaches. -/
def sortBreaches (bs : List Breach) : List Breach :=
  List.insertionSort breachLe bs

/-- Modelled from the spec: the first breach by timestamp. -/
def earliestBreach (bs : List Breach) : Option Breach :=
  (sortBreaches bs).head?

/-- Modelled from the spec: the named precedence decision of spec 4.4 and 9.
When the SLA is breached and the marker arrived late, the marker delay
outranks every infrastructure breach as root cause; otherwise the earliest
infrastructure breach, when one exists, is the root cause. -/
def precedenceDecision (breached isMarkerLate : Bool) (earliest : Option Breach) : Option CauseRef :=
  if breached && isMarkerLate then some .marker
  else earliest.map (fun b => .infra b.domain b.timestamp)

/-- Modelled from the spec: role assignment (spec 4.4): a breach is the root
cause exactly when it is the designated earliest infrastructure breach;
under a marker delay every infrastructure breach is a cascading effect. -/
def roleOf (primary : Option CauseRef) (b : Breach) : Role :=
  match primary with
  | some (.infra d ts) => if b.domain = d ∧ b.timestamp = ts then .rootCause else .cascading
  | _ => .cascading

/-- Modelled from the spec: default grouping gap of fifteen minutes. -/
def gapMinutes : ℤ := 15

/-- Modelled from the spec: gap grouping of one sorted domain sequence; a
new cluster starts whenever the next breach is more than gap minutes after
the previous one. -/
def clusterAux (gap : ℤ) : List Breach → List Breach → ℤ → List (List Breach)
  | [], cur, _ => [cur.reverse]
  | b :: bs, cur, last =>
    if b.timestamp - last > gap then
      cur.reverse :: clusterAux gap bs [b] b.timestamp
    else
      clusterAux gap bs (b :: cur) b.timestamp

/-- Modelled from the spec: gap grouping of a sorted breach sequence. -/
def clusterChain (gap : ℤ) : List Breach → List (List Breach)
  | [] => []
  | b :: bs => clusterAux gap bs [b] b.timestamp

/-- The three domains in their fixed priority order. -/
def domains : List Domain := [.eks, .rds, .sqs]

/-- Modelled from the spec: breaches of the same domain within the gap are
grouped into one correlated cluster (spec 4.4); grouping is per domain over
the chronologically sorted sequence. -/
def clustersOf (bs : List Breach) : List (List Breach) :=
  (domains.map (fun d =>
    clusterChain gapMinutes (sortBreaches (bs.filter (fun b => decide (b.domain = d)))))).flatten

/-- Modelled from the spec: each cluster keeps its peak severity sample as
representative, the first critical sample if any, else the first sample. -/
def clusterRep (c : List Breach) : Option Breach :=
  match c.find? (fun b => decide (b.severity = .critical)) with
  | some b => some b
  | none => c.head?

/-! ### Root cause summary, modelled from spec 4.5 -/

/-- Modelled from the spec: root cause category. -/
inductive Category
  | markerDelay
  | infrastructure
  | unexplained
deriving DecidableEq

/-- Modelled from the spec: RootCause record (spec 3); evidence lists the
timestamps of the supporting readings and ref carries the identity under
which timeline impact annotations cite this cause. -/
structure RootCause where
  category : Category
  severity : Severity
  cause_text : String
  evidence : List ℤ
  contribution_percentage : ℚ
  ref : Option CauseRef
deriving DecidableEq

/-- Number of critical samples of a cluster. -/
def criticalCount (c : List Breach) : ℕ :=
  (c.filter (fun b => decide (b.severity = .critical))).length

/-- Number of warning samples of a cluster. -/
def warningCount (c : List Breach) : ℕ :=
  (c.filter (fun b => decide (b.severity = .warning))).length

/-- Modelled from the spec: contribution of one cluster, its share of the
critical samples scaled to 100; with zero critical samples overall, the
share of the warning samples instead. -/
def clusterContribution (totalCrit totalWarn : ℕ) (c : List Breach) : ℚ :=
  if totalCrit > 0 then (criticalCount c : ℚ) * 100 / (totalCrit : ℚ)
  else if totalWarn > 0 then (warningCount c : ℚ) * 100 / (totalWarn : ℚ)
  else 0

/-- Severity of a cluster: critical when it holds a critical sample. -/
def clusterSeverity (c : List Breach) : Severity :=
  if criticalCount c > 0 then .critical else .warning

/-- Display name of a domain. -/
def domainName : Domain → String
  | .eks => "compute-orchestration"
  | .rds => "relational-storage"
  | .sqs => "queueing"

/-- Modelled from the spec: the RootCause produced for one correlated
cluster, identified by the domain and start time of its initiating sample,
which is also the listed evidence. -/
def clusterRootCause (totalCrit totalWarn : ℕ) (c : List Breach) : Option RootCause :=
  c.head?.map (fun b0 =>
    { category := .infrastructure
      severity := clusterSeverity c
      cause_text := domainName b0.domain ++ " breach cluster"
      evidence := [b0.timestamp]
      contribution_percentage := clusterContribution totalCrit totalWarn c
      ref := some (.infra b0.domain b0.timestamp) })

/-- Modelled from the spec: the single RootCause entry emitted for a marker
delay; its evidence is the late arrival instant. -/
def markerRootCause (t : TriggerEvent) : RootCause :=
  { category := .markerDelay
    severity := .critical
    cause_text := "marker delay: " ++ t.name
    evidence := [t.actual_arrival_time]
    contribution_percentage := 100
    ref := some .marker }

/-- Modelled from the spec: the required degenerate RootCause for a breach
with no correlating threshold data (spec 4.5). -/
def unexplainedRootCause : RootCause :=
  { category := .unexplained
    severity := .warning
    cause_text := "unexplained: no threshold data correlates with the SLA breach"
    evidence := []
    contribution_percentage := 100
    ref := none }

/-- Modelled from the spec: the Root Cause Summarizer (spec 4.5): one
RootCause per cluster, plus exactly one marker delay entry when the SLA is
breached and the marker arrived late; when the SLA is breached with no
marker delay and no cluster at all, the single unexplained entry. -/
def summarize (breached : Bool) (tr : Option TriggerEvent) (clusters : List (List Breach)) : List RootCause :=
  let totalCrit := (clusters.map criticalCount).sum
  let totalWarn := (clusters.map warningCount).sum
  let clusterRCs := clusters.filterMap (clusterRootCause totalCrit totalWarn)
  let isLate := (tr.map markerLate).getD false
  if breached then
    if isLate then
      match tr with
      | some t => markerRootCause t :: clusterRCs
      | none => clusterRCs
    else if clusters = [] then [unexplainedRootCause]
    else clusterRCs
  else clusterRCs

/-! ### Timeline assembly, modelled from spec 4.6 -/

/-- Modelled from the spec: severity of a timeline event. -/
inductive EvSeverity
  | info
  | warning
  | critical
  | success
deriving DecidableEq

/-- Modelled from the spec: externally consumed timeline event; the impact
annotation, when present, cites the cause the event is attributed to. -/
structure TimelineEvent where
  timestamp : ℤ
  event : String
  severity : EvSeverity
  details : String
  impact : Option CauseRef
deriving DecidableEq

/-- Breach severity as timeline event severity. -/
def severityToEv : Severity → EvSeverity
  | .warning => .warning
  | .critical => .critical

/-- Ordering of timeline events by timestamp. -/
def teLe (a b : TimelineEvent) : Prop := a.timestamp ≤ b.timestamp

instance : DecidableRel teLe := fun a b => inferInstanceAs (Decidable (a.timestamp ≤ b.timestamp))

instance : IsTotal TimelineEvent teLe := ⟨fun a b => Int.le_total a.timestamp b.timestamp⟩

instance : IsTrans TimelineEvent teLe := ⟨fun _ _ _ h1 h2 => le_trans h1 h2⟩

/-- Modelled from the spec: final ascending sort of the assembled timeline
(spec 4.6). -/
def sortTimeline (tes : List TimelineEvent) : List TimelineEvent :=
  List.insertionSort teLe tes

/-- Modelled from the spec: the Timeline Assembler (spec 4.6): trigger
arrival, job start, each cluster representative and job completion, sorted
ascending; cluster representatives other than the primary cause itself, and
the completion of a breached run, carry an impact annotation citing the
primary cause. -/
def assembleTimeline (tr : Option TriggerEvent) (runs : List JobRun)
    (completion : ℤ) (clusters : List (List Breach))
    (primary : Option CauseRef) (breached : Bool) : List TimelineEvent :=
  let triggerEvs : List TimelineEvent :=
    match tr with
    | some t =>
      [{ timestamp := t.actual_arrival_time
         event := "trigger arrival"
         severity := if markerLate t then .warning else .info
         details := t.name
         impact := none }]
    | none => []
  let startEvs : List TimelineEvent :=
    match (runs.map (fun r => r.start_time)).min? with
    | some s =>
      [{ timestamp := s
         event := "job start"
         severity := .info
         details := "processing window opens"
         impact := none }]
    | none => []
  let repEvs : List TimelineEvent :=
    clusters.filterMap (fun c =>
      (clusterRep c).map (fun b =>
        { timestamp := b.timestamp
          event := domainName b.domain ++ " " ++ b.metric_name
          severity := severityToEv b.severity
          details := "threshold breach"
          impact := if primary = some (.infra b.domain b.timestamp) then none else primary }))
  let completionEvs : List TimelineEvent :=
    [{ timestamp := completion
       event := "job completion"
       severity := if breached then .warning else .success
       details := "processing window closes"
       impact := if breached then primary else none }]
  sortTimeline (triggerEvs ++ startEvs ++ repEvs ++ completionEvs)

/-! ### The analysis pipeline, modelled from spec 4 and 6 -/

/-- Modelled from the spec: the structured output of one analysis
invocation. -/
structure AnalysisOutput where
  verdict : SlaVerdict
  arrival_time : Option ℤ
  completion_time : Option ℤ
  duration_hours : Option ℚ
  root_causes : List RootCause
  roles : List (Breach × Role)
  timeline : List TimelineEvent
deriving DecidableEq

/-- Modelled from the spec: one raw per-day metric bundle (spec 3); absent
documents are none or empty. -/
structure RawBundle where
  trigger : Option TriggerEvent
  jobRuns : List JobRun
  eksSamples : List Sample
  rdsSamples : List Sample
  sqsSamples : List Sample
deriving DecidableEq

/-- All telemetry samples of a bundle. -/
def allSamples (b : RawBundle) : List Sample :=
  b.eksSamples ++ b.rdsSamples ++ b.sqsSamples

/-- Modelled from the spec: the complete-window path of the pipeline:
scan, correlate, summarize and assemble. -/
def analyzeComplete (tr : Option TriggerEvent) (runs : List JobRun)
    (arrival completion : ℤ) (samples : List Sample) : AnalysisOutput :=
  let breaches := scanSamples arrival completion samples
  let breached := slaBreachedOf arrival completion
  let isLate := (tr.map markerLate).getD false
  let primary := precedenceDecision breached isLate (earliestBreach breaches)
  let clusters := clustersOf breaches
  { verdict := if breached then .breachedVerdict else .met
    arrival_time := some arrival
    completion_time := some completion
    duration_hours := some (durationHours arrival completion)
    root_causes := summarize breached tr clusters
    roles := breaches.map (fun br => (br, roleOf primary br))
    timeline := assembleTimeline tr runs completion clusters primary breached }

/-- Modelled from the spec: the output of an invocation whose window is
incomplete: the explicit incomplete verdict, zero breaches, zero causes. -/
def incompleteOutput (arrival completion : Option ℤ) : AnalysisOutput :=
  { verdict := .incomplete
    arrival_time := arrival
    completion_time := completion
    duration_hours := none
    root_causes := []
    roles := []
    timeline := [] }

/-- Modelled from the spec: analysis of one bundle: when both the trigger
arrival and the completion time exist the full pipeline runs, otherwise the
evaluation is deferred with the incomplete verdict (spec 4.2, 4.3, 7). -/
def analyzeBundle (b : RawBundle) : AnalysisOutput :=
  let ar := b.trigger.map (fun t => t.actual_arrival_time)
  let co := completionOf b.jobRuns
  match ar, co with
  | some a, some c => analyzeComplete b.trigger b.jobRuns a c (allSamples b)
  | _, _ => incompleteOutput ar co

/-- Modelled from the spec: the storage collaborator (spec 6), a read-only
association of date keys with raw bundles. -/
def Storage : Type := List (String × RawBundle)

/-- Modelled from the spec: lookup of the documents of one date. -/
def lookupBundle (s : Storage) (date : String) : Option RawBundle :=
  (List.find? (fun p => decide (p.1 = date)) s).map (fun p => p.2)

/-- Modelled from the spec: output when storage has no documents at all for
the requested date. -/
def notFoundOutput : AnalysisOutput :=
  incompleteOutput none none

/-- Modelled from the spec: the analyze entry point (spec 6) with the
storage state passed explicitly; it returns the structured output together
with the storage it leaves behind, making the absence of side effects part
of the model. -/
def analyzeCall (date : String) (s : Storage) : AnalysisOutput × Storage :=
  match lookupBundle s date with
  | some b => (analyzeBundle b, s)
  | none => (notFoundOutput, s)

/-! ### Helper lemmas -/

/-- Every breach the scanner emits lies inside the closed window. -/
theorem mem_scanSamples {a c : ℤ} {ss : List Sample} {br : Breach}
    (h : br ∈ scanSamples a c ss) : a ≤ br.timestamp ∧ br.timestamp ≤ c := by
  unfold scanSamples at h
  obtain ⟨s, _, hf⟩ := List.mem_filterMap.mp h
  by_cases hw : a ≤ s.timestamp ∧ s.timestamp ≤ c
  · rw [if_pos hw] at hf
    cases hth : thresholdTable s.domain s.metric_name with
    | none => rw [hth] at hf; cases hf
    | some th =>
      rw [hth] at hf
      dsimp only at hf
      cases hcl : classifyValue th s.value with
      | none => rw [hcl] at hf; cases hf
      | some sev =>
        rw [hcl] at hf
        simp only [Option.map_some', Option.some.injEq] at hf
        rw [← hf]
        exact hw
  · rw [if_neg hw] at hf
    cases hf

/-- Members of the clusters of the grouping auxiliary come from the current
cluster or from the remaining input. -/
theorem mem_clusterAux {gap : ℤ} :
    ∀ (rest cur : List Breach) (last : ℤ) (cl : List Breach),
      cl ∈ clusterAux gap rest cur last → ∀ x ∈ cl, x ∈ cur ∨ x ∈ rest := by
  intro rest
  induction rest with
  | nil =>
    intro cur last cl hcl x hx
    unfold clusterAux at hcl
    simp only [List.mem_singleton] at hcl
    subst hcl
    exact Or.inl (List.mem_reverse.mp hx)
  | cons b bs ih =>
    intro cur last cl hcl x hx
    unfold clusterAux at hcl
    by_cases hgap : b.timestamp - last > gap
    · rw [if_pos hgap] at hcl
      rcases List.mem_cons.mp hcl with h1 | h2
      · subst h1
        exact Or.inl (List.mem_reverse.mp hx)
      · rcases ih [b] b.timestamp cl h2 x hx with h | h
        · exact Or.inr (List.mem_cons.mpr (Or.inl (List.mem_singleton.mp h)))
        · exact Or.inr (List.mem_cons.mpr (Or.inr h))
    · rw [if_neg hgap] at hcl
      rcases ih (b :: cur) b.timestamp cl hcl x hx with h | h
      · rcases List.mem_cons.mp h with h1 | h1
        · exact Or.inr (List.mem_cons.mpr (Or.inl h1))
        · exact Or.inl h1
      · exact Or.inr (List.mem_cons.mpr (Or.inr h))

/-- Members of the clusters of a chain come from its input. -/
theorem mem_clusterChain {gap : ℤ} {bs cl : List Breach}
    (hcl : cl ∈ clusterChain gap bs) : ∀ x ∈ cl, x ∈ bs := by
  intro x hx
  cases bs with
  | nil => cases hcl
  | cons b rest =>
    unfold clusterChain at hcl
    rcases mem_clusterAux rest [b] b.timestamp cl hcl x hx with h | h
    · exact List.mem_cons.mpr (Or.inl (List.mem_singleton.mp h))
    · exact List.mem_cons.mpr (Or.inr h)

/-- Members of the correlated clusters are breaches of the scanned list. -/
theorem mem_clustersOf {bs cl : List Breach} (hcl : cl ∈ clustersOf bs) :
    ∀ x ∈ cl, x ∈ bs := by
  intro x hx
  unfold clustersOf at hcl
  obtain ⟨l, hl, hcll⟩ := List.mem_flatten.mp hcl
  obtain ⟨d, _, hld⟩ := List.mem_map.mp hl
  rw [← hld] at hcll
  have hx2 := mem_clusterChain hcll x hx
  rw [sortBreaches, List.mem_insertionSort] at hx2
  exact (List.mem_filter.mp hx2).1

/-- The earliest breach belongs to the list and bounds every member from
below. -/
theorem earliestBreach_spec {bs : List Breach} {e : Breach}
    (he : earliestBreach bs = some e) :
    e ∈ bs ∧ ∀ x ∈ bs, e.timestamp ≤ x.timestamp := by
  unfold earliestBreach at he
  cases hs : sortBreaches bs with
  | nil => rw [hs] at he; cases he
  | cons b0 rest =>
    rw [hs] at he
    simp only [List.head?_cons, Option.some.injEq] at he
    subst he
    have hsorted : List.Sorted breachLe (sortBreaches bs) :=
      List.sorted_insertionSort breachLe bs
    rw [hs] at hsorted
    have hmin := (List.sorted_cons.mp hsorted).1
    have hmem : b0 ∈ sortBreaches bs := by rw [hs]; exact List.mem_cons_self b0 rest
    rw [sortBreaches, List.mem_insertionSort] at hmem
    refine ⟨hmem, fun x hx => ?_⟩
    have hx2 : x ∈ sortBreaches bs := by
      rw [sortBreaches, List.mem_insertionSort]; exact hx
    rw [hs] at hx2
    rcases List.mem_cons.mp hx2 with h | h
    · rw [h]
    · exact hmin x h

/-- The representative of a cluster is one of its members. -/
theorem clusterRep_mem {cl : List Breach} {b : Breach}
    (h : clusterRep cl = some b) : b ∈ cl := by
  unfold clusterRep at h
  cases hf : cl.find? (fun x => decide (x.severity = .critical)) with
  | some b2 =>
    rw [hf] at h
    simp only [Option.some.injEq] at h
    subst h
    exact List.mem_of_find?_eq_some hf
  | none =>
    rw [hf] at h
    cases cl with
    | nil => cases h
    | cons x xs =>
      simp only [List.head?_cons, Option.some.injEq] at h
      subst h
      exact List.mem_cons_self x xs

/-- Shape of the members of the summarizer output: the marker delay entry,
the unexplained entry, or a cluster entry whose reference and evidence carry
the timestamp of the initiating sample of its cluster. -/
theorem mem_summarize {breached : Bool} {tr : Option TriggerEvent}
    {clusters : List (List Breach)} {rc : RootCause}
    (h : rc ∈ summarize breached tr clusters) :
    (∃ t, tr = some t ∧ rc = markerRootCause t) ∨ rc = unexplainedRootCause ∨
      ∃ cl ∈ clusters, ∃ b0, cl.head? = some b0 ∧
        rc.ref = some (.infra b0.domain b0.timestamp) ∧ rc.evidence = [b0.timestamp] := by
  have hcluster :
      ∀ tc tw, rc ∈ clusters.filterMap (clusterRootCause tc tw) →
        ∃ cl ∈ clusters, ∃ b0, cl.head? = some b0 ∧
          rc.ref = some (.infra b0.domain b0.timestamp) ∧ rc.evidence = [b0.timestamp] := by
    intro tc tw hmem
    obtain ⟨cl, hclmem, hf⟩ := List.mem_filterMap.mp hmem
    refine ⟨cl, hclmem, ?_⟩
    unfold clusterRootCause at hf
    cases hh : cl.head? with
    | none => rw [hh] at hf; cases hf
    | some b0 =>
      rw [hh] at hf
      simp only [Option.map_some', Option.some.injEq] at hf
      exact ⟨b0, rfl, by rw [← hf], by rw [← hf]⟩
  unfold summarize at h
  by_cases hb : breached
  · rw [if_pos hb] at h
    by_cases hl : (tr.map markerLate).getD false
    · rw [if_pos hl] at h
      cases htr : tr with
      | some t =>
        rw [htr] at h
        rcases List.mem_cons.mp h with h1 | h2
        · exact Or.inl ⟨t, rfl, h1⟩
        · exact Or.inr (Or.inr (hcluster _ _ h2))
      | none =>
        rw [htr] at h
        exact Or.inr (Or.inr (hcluster _ _ h))
    · rw [if_neg hl] at h
      by_cases hc : clusters = []
      · rw [if_pos hc] at h
        simp only [List.mem_singleton] at h
        exact Or.inr (Or.inl h)
      · rw [if_neg hc] at h
        exact Or.inr (Or.inr (hcluster _ _ h))
  · rw [if_neg hb] at h
    exact Or.inr (Or.inr (hcluster _ _ h))

/-- Shape of the members of the assembled timeline: either the impact field
is empty, or it equals the primary cause and the event is the completion or
the representative of one of the clusters. -/
theorem mem_assembleTimeline {tr : Option TriggerEvent} {runs : List JobRun}
    {completion : ℤ} {clusters : List (List Breach)} {primary : Option CauseRef}
    {breached : Bool} {te : TimelineEvent}
    (h : te ∈ assembleTimeline tr runs completion clusters primary breached) :
    te.impact = none ∨
      (te.impact = primary ∧
        (te.timestamp = completion ∨
          ∃ cl ∈ clusters, ∃ b, clusterRep cl = some b ∧ te.timestamp = b.timestamp)) := by
  unfold assembleTimeline at h
  rw [sortTimeline, List.mem_insertionSort] at h
  rw [List.mem_append] at h
  rcases h with h | h
  · rw [List.mem_append] at h
    rcases h with h | h
    · rw [List.mem_append] at h
      rcases h with h | h
      · cases htr : tr with
        | some t =>
          rw [htr] at h
          rcases List.mem_singleton.mp h with rfl
          exact Or.inl rfl
        | none => rw [htr] at h; cases h
      · cases hmin : (runs.map (fun r => r.start_time)).min? with
        | some s =>
          rw [hmin] at h
          rcases List.mem_singleton.mp h with rfl
          exact Or.inl rfl
        | none => rw [hmin] at h; cases h
    · obtain ⟨cl, hcl, hf⟩ := List.mem_filterMap.mp h
      cases hr : clusterRep cl with
      | none => rw [hr] at hf; cases hf
      | some b =>
        rw [hr] at hf
        simp only [Option.map_some', Option.some.injEq] at hf
        subst hf
        by_cases hp : primary = some (.infra b.domain b.timestamp)
        · rw [if_pos hp]
          exact Or.inl rfl
        · rw [if_neg hp]
          exact Or.inr ⟨rfl, Or.inr ⟨cl, hcl, b, hr, rfl⟩⟩
  · rcases List.mem_singleton.mp h with rfl
    by_cases hb : breached
    · refine Or.inr ⟨?_, Or.inl rfl⟩
      show (if breached then primary else none) = primary
      rw [if_pos hb]
    · refine Or.inl ?_
      show (if breached then primary else none) = none
      rw [if_neg hb]

/-- Reduction of analyzeBundle on a bundle with a trigger and a complete
window. -/
theorem analyzeBundle_eq_complete {b : RawBundle} {t : TriggerEvent} {c : ℤ}
    (ht : b.trigger = some t) (hc : completionOf b.jobRuns = some c) :
    analyzeBundle b =
      analyzeComplete (some t) b.jobRuns t.actual_arrival_time c (allSamples b) := by
  unfold analyzeBundle
  rw [ht, hc]
  rfl

/-- Reduction of analyzeBundle on a bundle with an incomplete window. -/
theorem analyzeBundle_eq_incomplete {b : RawBundle}
    (hc : completionOf b.jobRuns = none) :
    analyzeBundle b =
      incompleteOutput (b.trigger.map (fun t => t.actual_arrival_time)) none := by
  unfold analyzeBundle
  rw [hc]
  cases b.trigger.map (fun t => t.actual_arrival_time) with
  | some a => rfl
  | none => rfl

/-- The root causes of the complete path are the summarizer output. -/
theorem analyzeComplete_root_causes {tr : Option TriggerEvent} {runs : List JobRun}
    {a c : ℤ} {ss : List Sample} :
    (analyzeComplete tr runs a c ss).root_causes =
      summarize (slaBreachedOf a c) tr (clustersOf (scanSamples a c ss)) := rfl

/-- The timeline of the complete path is the assembler output. -/
theorem analyzeComplete_timeline {tr : Option TriggerEvent} {runs : List JobRun}
    {a c : ℤ} {ss : List Sample} :
    (analyzeComplete tr runs a c ss).timeline =
      assembleTimeline tr runs c (clustersOf (scanSamples a c ss))
        (precedenceDecision (slaBreachedOf a c) ((tr.map markerLate).getD false)
          (earliestBreach (scanSamples a c ss)))
        (slaBreachedOf a c) := rfl

/-- The role list of the complete path. -/
theorem analyzeComplete_roles {tr : Option TriggerEvent} {runs : List JobRun}
    {a c : ℤ} {ss : List Sample} :
    (analyzeComplete tr runs a c ss).roles =
      (scanSamples a c ss).map (fun br =>
        (br, roleOf (precedenceDecision (slaBreachedOf a c) ((tr.map markerLate).getD false)
          (earliestBreach (scanSamples a c ss))) br)) := rfl

/-! ### Claims -/

/-- C1: the SLA breach verdict is the strict comparison of the processing
duration against the three hour limit: the CompactTimeline flag is true
exactly when the duration exceeds the three hour parameter, a duration of
exactly three hours is not a breach, and the modelled evaluator verdict is
the strict comparison of completion minus arrival in fractional hours, with
a window of exactly three hours not breached. -/
theorem sla_breach_strict_comparison :
    (∀ d : ℚ, slaBreachedFlag d slaHoursDefault = decide (d > 3)) ∧
    slaBreachedFlag 3 slaHoursDefault = false ∧
    (∀ a c : ℤ, durationHours a c = ((c - a : ℤ) : ℚ) / 60) ∧
    (∀ a c : ℤ, slaBreachedOf a c = decide (durationHours a c > 3)) ∧
    slaBreachedOf 0 180 = false := by
  refine ⟨fun d => rfl, by decide, fun a c => ?_, fun a c => rfl, by decide⟩
  rw [durationHours, Rat.mkRat_eq_div]
  norm_num

/-- SLA status of an incomplete window as the two valued frontend contract
forces it to be encoded: only the breached flag false is available. -/
def incompleteEncodedStatus : SLAStatus :=
  { breached := false
    duration_hours := 0
    expected_hours := 3
    excess_hours := 0
    arrival_time := "unavailable"
    completion_time := "unavailable" }

/-- C3 counterexample: the SLAStatus contract carries no third value: an
incomplete window can only be encoded with the breached flag false, and the
consuming component renders that status as Met. -/
theorem sla_incomplete_rendered_met :
    incompleteEncodedStatus.breached = false ∧
    slaStatusLabel incompleteEncodedStatus = "Met" := ⟨rfl, rfl⟩

/-- C3 amended: every SLAStatus is rendered as either Breached or Met, so no
third incomplete rendering reaches the caller; in the spec-modelled engine
an incomplete window yields the distinct incomplete verdict with zero
breaches and zero root causes. -/
theorem sla_status_two_valued :
    (∀ s : SLAStatus, slaStatusLabel s = "Breached" ∨ slaStatusLabel s = "Met") ∧
    (∀ b : RawBundle, completionOf b.jobRuns = none →
      (analyzeBundle b).verdict = SlaVerdict.incomplete ∧
      (analyzeBundle b).roles = [] ∧
      (analyzeBundle b).root_causes = []) := by
  constructor
  · intro s
    cases h : s.breached
    · exact Or.inr (by simp [slaStatusLabel, h])
    · exact Or.inl (by simp [slaStatusLabel, h])
  · intro b hc
    rw [analyzeBundle_eq_incomplete hc]
    exact ⟨rfl, rfl, rfl⟩

/-- Bundle of a date whose job run document is empty. -/
def emptyBundle : RawBundle :=
  { trigger := none, jobRuns := [], eksSamples := [], rdsSamples := [], sqsSamples := [] }

/-- C3 witness: the empty bundle has an incomplete window and the amended
statement holds on it. -/
theorem sla_status_two_valued_witness :
    completionOf emptyBundle.jobRuns = none ∧
    ((analyzeBundle emptyBundle).verdict = SlaVerdict.incomplete ∧
      (analyzeBundle emptyBundle).roles = [] ∧
      (analyzeBundle emptyBundle).root_causes = []) := by
  have hc : completionOf emptyBundle.jobRuns = none := by decide
  exact ⟨hc, sla_status_two_valued.2 emptyBundle hc⟩

/-- C4: determinism and idempotence of the modelled analyze entry point: a
call leaves the storage unchanged, and a repeated call with the storage the
first call left behind produces the identical structured output. -/
theorem analyze_idempotent :
    ∀ (date : String) (s : Storage),
      (analyzeCall date s).2 = s ∧
      (analyzeCall date (analyzeCall date s).2).1 = (analyzeCall date s).1 := by
  intro date s
  have h2 : (analyzeCall date s).2 = s := by
    unfold analyzeCall
    cases lookupBundle s date <;> rfl
  exact ⟨h2, by rw [h2]⟩

/-- C9: extractDateFromQuery is a constant function: whatever the matching
oracle and the query, it returns the fixed default date, the same constant
sendChatMessage defaults to. -/
theorem extractDateFromQuery_constant :
    (∀ (pmatch : ℕ → String → Bool) (query : String),
      extractDateFromQuery pmatch query = "2025-08-01") ∧
    sendChatMessageDefaultDate = "2025-08-01" := by
  refine ⟨fun pmatch query => ?_, rfl⟩
  unfold extractDateFromQuery
  split <;> rfl

/-- Naive ISO timestamp written with a T separator and with the dashes of
its date part, spelling the wall clock 06:45 and carrying no zone. -/
def naiveIsoTs : TsStr :=
  { wall := 405, mark := none, hasT := true, endsWithZ := false,
    hasPlus := false, hasDash := true }

/-- C5 counterexample: formatTime of TimelineGraph displays the naive ISO
timestamp 06:45 differently on a UTC host and on a UTC plus one hour host,
and the CompactTimeline parse yields two different instants, so a naive
timestamp is interpreted as host-local time rather than as UTC. -/
theorem naive_timestamp_host_dependent :
    tgFormatTime naiveIsoTs 60 ≠ tgFormatTime naiveIsoTs 0 ∧
    ctParsedInstant naiveIsoTs 60 ≠ ctParsedInstant naiveIsoTs 0 := by decide

/-- C5 amended: a Z-marked UTC timestamp is displayed host-independently by
TimelineGraph, but a naive timestamp with a T separator and a dash (every
ISO date) is interpreted as host-local because the zone check also matches
the date dashes; only dash-free or space-separated naive timestamps are
treated as UTC; CompactTimeline interprets naive timestamps as host-local
and renders every timestamp in the host timezone. -/
theorem timestamp_parsing_behaviour :
    (∀ (t : TsStr) (h : ℤ), t.hasT = true → t.endsWithZ = true → t.mark = some 0 →
      tgFormatTime t h = t.wall) ∧
    (∀ (t : TsStr) (h : ℤ), t.hasT = true → t.endsWithZ = false → t.hasPlus = false →
      t.hasDash = true → t.mark = none → tgFormatTime t h = t.wall - h) ∧
    (∀ (t : TsStr) (h : ℤ), t.hasT = true → t.endsWithZ = false → t.hasPlus = false →
      t.hasDash = false → tgFormatTime t h = t.wall) ∧
    (∀ (t : TsStr) (h : ℤ), t.hasT = false → tgFormatTime t h = t.wall) ∧
    (∀ (t : TsStr) (h : ℤ), t.mark = none → ctParsedInstant t h = t.wall - h) ∧
    (∀ (t : TsStr) (h z : ℤ), t.mark = some z → ctFormatTime t h = t.wall - z + h) := by
  refine ⟨?_, ?_, ?_, ?_, ?_, ?_⟩
  · intro t h h1 h2 h3
    simp [tgFormatTime, jsParseInstant, h1, h2, h3]
  · intro t h h1 h2 h3 h4 h5
    simp [tgFormatTime, jsParseInstant, h1, h2, h3, h4, h5]
  · intro t h h1 h2 h3 h4
    simp [tgFormatTime, jsParseInstant, h1, h2, h3, h4]
  · intro t h h1
    simp [tgFormatTime, jsParseInstant, h1]
  · intro t h h1
    simp [ctParsedInstant, jsParseInstant, h1]
  · intro t h z h1
    simp [ctFormatTime, ctParsedInstant, jsParseInstant, h1]

/-- C5 witness: the amended behaviour evaluated at concrete timestamps on a
UTC plus one hour host. -/
theorem timestamp_parsing_behaviour_witness :
    tgFormatTime ⟨405, some 0, true, true, false, true⟩ 60 = 405 ∧
    tgFormatTime naiveIsoTs 60 = 405 - 60 ∧
    tgFormatTime ⟨405, none, true, false, false, false⟩ 60 = 405 ∧
    tgFormatTime ⟨405, none, false, false, false, true⟩ 60 = 405 ∧
    ctParsedInstant naiveIsoTs 60 = 405 - 60 ∧
    ctFormatTime ⟨405, some 0, true, true, false, true⟩ 60 = 405 - 0 + 60 :=
  ⟨timestamp_parsing_behaviour.1 _ 60 rfl rfl rfl,
   timestamp_parsing_behaviour.2.1 _ 60 rfl rfl rfl rfl rfl,
   timestamp_parsing_behaviour.2.2.1 _ 60 rfl rfl rfl rfl,
   timestamp_parsing_behaviour.2.2.2.1 _ 60 rfl,
   timestamp_parsing_behaviour.2.2.2.2.1 _ 60 rfl,
   timestamp_parsing_behaviour.2.2.2.2.2 _ 60 0 rfl⟩

/-- Two frontend events listed latest first. -/
def unsortedPairEvents : List FEvent :=
  [{ ts := 2, label := "later" }, { ts := 1, label := "earlier" }]

/-- C6 counterexample: the Timeline component renders the order received, so
its displayed sequence is not ascending for an input listed latest first. -/
theorem timeline_render_order_not_sorted :
    ¬ List.Sorted feLe (timelineRenderOrder unsortedPairEvents) := by
  intro h
  have h2 := (List.sorted_cons.mp h).1 { ts := 1, label := "earlier" }
    (List.mem_singleton.mpr rfl)
  exact absurd h2 (by decide)

/-- C6 amended: TimelineGraph sorts its events ascending by timestamp before
rendering, for every input; the Timeline component renders exactly the order
received, so its display is sorted only when its input already is. -/
theorem timeline_graph_sorts_events :
    (∀ events : List FEvent, List.Sorted feLe (tgSortedEvents events)) ∧
    (∀ events : List FEvent, timelineRenderOrder events = events) :=
  ⟨fun events => List.sorted_insertionSort feLe events, fun _ => rfl⟩

/-- Two frontend events one hour apart, listed latest first. -/
def reversedPairEvents : List FEvent :=
  [{ ts := 3600000, label := "later" }, { ts := 0, label := "earlier" }]

/-- C10: the Total Duration figure is computed from the first and the last
element of the input array in the order given: for input already sorted
ascending it equals the chronological span, while the reversed pair yields
minus one hour, differing from its true span of one hour. -/
theorem total_duration_from_input_order :
    (∀ events : List FEvent, List.Sorted feLe events →
      tgTotalDurationHrs events = chronologicalSpanHrs events) ∧
    tgTotalDurationHrs reversedPairEvents = some (-1) ∧
    chronologicalSpanHrs reversedPairEvents = some 1 := by
  refine ⟨fun events h => ?_, ?_, ?_⟩
  · unfold chronologicalSpanHrs
    rw [tgSortedEvents, h.insertionSort_eq]
  · simp [tgTotalDurationHrs, reversedPairEvents]
    norm_num
  · have hord : ¬ feLe { ts := 3600000, label := "later" } { ts := 0, label := "earlier" } := by
      decide
    simp [chronologicalSpanHrs, tgSortedEvents, tgTotalDurationHrs, reversedPairEvents,
      List.insertionSort, List.orderedInsert, hord]
    norm_num

/-- Two frontend events one hour apart, listed in ascending order. -/
def sortedPairEvents : List FEvent :=
  [{ ts := 0, label := "earlier" }, { ts := 3600000, label := "later" }]

/-- C10 witness: the sorted pair satisfies the sortedness hypothesis and its
Total Duration figure equals its chronological span. -/
theorem total_duration_from_input_order_witness :
    List.Sorted feLe sortedPairEvents ∧
    tgTotalDurationHrs sortedPairEvents = chronologicalSpanHrs sortedPairEvents := by
  have hs : List.Sorted feLe sortedPairEvents := by
    rw [sortedPairEvents, List.sorted_cons]
    refine ⟨?_, List.sorted_singleton _⟩
    intro b hb
    rcases List.mem_singleton.mp hb with rfl
    decide
  exact ⟨hs, total_duration_from_input_order.1 sortedPairEvents hs⟩

/-- C2: marker delay precedence: on a bundle whose trigger arrived after its
scheduled time and whose SLA is breached, the first root cause entry is the
marker delay entry, and every infrastructure breach is classified as a
cascading effect rather than as an independent root cause. -/
theorem marker_delay_precedence {b : RawBundle} {t : TriggerEvent} {c : ℤ}
    (ht : b.trigger = some t)
    (hc : completionOf b.jobRuns = some c)
    (hlate : markerLate t = true)
    (hbr : slaBreachedOf t.actual_arrival_time c = true) :
    (analyzeBundle b).root_causes.head? = some (markerRootCause t) ∧
    (∀ p ∈ (analyzeBundle b).roles, p.2 = Role.cascading) := by
  rw [analyzeBundle_eq_complete ht hc]
  constructor
  · rw [analyzeComplete_root_causes, hbr]
    simp [summarize, hlate]
  · intro p hp
    rw [analyzeComplete_roles] at hp
    obtain ⟨br, hbrmem, rfl⟩ := List.mem_map.mp hp
    simp [roleOf, precedenceDecision, hbr, hlate]

/-- Trigger of the marker delay scenario: scheduled 06:15, arrived 06:45. -/
def scenarioBTrigger : TriggerEvent :=
  { scheduled_time := 375, actual_arrival_time := 405,
    name := "GLOBAL-OTCDerivatives-EOD-Close" }

/-- Bundle of the marker delay scenario: single job run 07:00 to 09:50 and
no telemetry sample at all. -/
def scenarioBBundle : RawBundle :=
  { trigger := some scenarioBTrigger
    jobRuns := [{ run_id := "run-1", start_time := 420, end_time := some 590,
                  status := "success" }]
    eksSamples := []
    rdsSamples := []
    sqsSamples := [] }

/-- C2 witness: the marker delay scenario satisfies every hypothesis and the
precedence conclusion holds on it. -/
theorem marker_delay_precedence_witness :
    (scenarioBBundle.trigger = some scenarioBTrigger ∧
      completionOf scenarioBBundle.jobRuns = some 590 ∧
      markerLate scenarioBTrigger = true ∧
      slaBreachedOf scenarioBTrigger.actual_arrival_time 590 = true) ∧
    ((analyzeBundle scenarioBBundle).root_causes.head? = some (markerRootCause scenarioBTrigger) ∧
      ∀ p ∈ (analyzeBundle scenarioBBundle).roles, p.2 = Role.cascading) := by
  have h1 : scenarioBBundle.trigger = some scenarioBTrigger := rfl
  have h2 : completionOf scenarioBBundle.jobRuns = some 590 := by decide
  have h3 : markerLate scenarioBTrigger = true := by decide
  have h4 : slaBreachedOf scenarioBTrigger.actual_arrival_time 590 = true := by decide
  exact ⟨⟨h1, h2, h3, h4⟩, marker_delay_precedence h1 h2 h3 h4⟩

/-- C7 counterexample: the marker delay scenario is a breached bundle with
zero threshold breaches, yet its output is the single marker delay root
cause, not an unexplained one. -/
theorem breached_without_breaches_not_unexplained :
    (analyzeBundle scenarioBBundle).verdict = SlaVerdict.breachedVerdict ∧
    (analyzeBundle scenarioBBundle).roles = [] ∧
    ((analyzeBundle scenarioBBundle).root_causes.map (fun rc => rc.category)) =
      [Category.markerDelay] := by decide

/-- C7 amended: on a breached bundle with zero threshold breaches and no
marker delay, the output is exactly one root cause of category unexplained
with contribution one hundred. -/
theorem unexplained_degenerate {b : RawBundle} {t : TriggerEvent} {c : ℤ}
    (ht : b.trigger = some t)
    (hc : completionOf b.jobRuns = some c)
    (hnl : markerLate t = false)
    (hbr : slaBreachedOf t.actual_arrival_time c = true)
    (hnb : scanSamples t.actual_arrival_time c (allSamples b) = []) :
    (analyzeBundle b).root_causes = [unexplainedRootCause] ∧
    unexplainedRootCause.category = Category.unexplained ∧
    unexplainedRootCause.contribution_percentage = 100 := by
  refine ⟨?_, rfl, rfl⟩
  rw [analyzeBundle_eq_complete ht hc, analyzeComplete_root_causes, hnb, hbr]
  have hcl : clustersOf ([] : List Breach) = [] := rfl
  rw [hcl]
  simp [summarize, hnl]

/-- Trigger that arrived exactly on schedule. -/
def onTimeTrigger : TriggerEvent :=
  { scheduled_time := 405, actual_arrival_time := 405, name := "marker" }

/-- Breached bundle with an on-time trigger and no telemetry sample. -/
def unexplainedBundle : RawBundle :=
  { trigger := some onTimeTrigger
    jobRuns := [{ run_id := "run-1", start_time := 540, end_time := some 690,
                  status := "success" }]
    eksSamples := []
    rdsSamples := []
    sqsSamples := [] }

/-- C7 witness: the on-time breached bundle without samples satisfies every
hypothesis and yields the single unexplained root cause. -/
theorem unexplained_degenerate_witness :
    (unexplainedBundle.trigger = some onTimeTrigger ∧
      completionOf unexplainedBundle.jobRuns = some 690 ∧
      markerLate onTimeTrigger = false ∧
      slaBreachedOf onTimeTrigger.actual_arrival_time 690 = true ∧
      scanSamples onTimeTrigger.actual_arrival_time 690 (allSamples unexplainedBundle) = []) ∧
    ((analyzeBundle unexplainedBundle).root_causes = [unexplainedRootCause] ∧
      unexplainedRootCause.category = Category.unexplained ∧
      unexplainedRootCause.contribution_percentage = 100) := by
  have h1 : unexplainedBundle.trigger = some onTimeTrigger := rfl
  have h2 : completionOf unexplainedBundle.jobRuns = some 690 := by decide
  have h3 : markerLate onTimeTrigger = false := by decide
  have h4 : slaBreachedOf onTimeTrigger.actual_arrival_time 690 = true := by decide
  have h5 : scanSamples onTimeTrigger.actual_arrival_time 690 (allSamples unexplainedBundle) = [] := rfl
  exact ⟨⟨h1, h2, h3, h4, h5⟩, unexplained_degenerate h1 h2 h3 h4 h5⟩

/-- C8: no time travel: on a bundle with a trigger and a well formed
complete window, every evidence timestamp of every root cause entry is at
most the timestamp of every timeline event whose impact annotation cites
that cause. -/
theorem no_time_travel {b : RawBundle} {t : TriggerEvent} {c : ℤ}
    (ht : b.trigger = some t)
    (hc : completionOf b.jobRuns = some c)
    (hac : t.actual_arrival_time ≤ c) :
    ∀ rc ∈ (analyzeBundle b).root_causes, ∀ ev ∈ rc.evidence,
      ∀ te ∈ (analyzeBundle b).timeline, ∀ r, rc.ref = some r → te.impact = some r →
        ev ≤ te.timestamp := by
  rw [analyzeBundle_eq_complete ht hc]
  intro rc hrc ev hev te hte r href himp
  rw [analyzeComplete_root_causes] at hrc
  rw [analyzeComplete_timeline] at hte
  rcases mem_assembleTimeline hte with hnone | ⟨himp2, hwhere⟩
  · rw [hnone] at himp; cases himp
  have hprim := himp2.symm.trans himp
  have hdest : te.timestamp = c ∨
      ∃ x ∈ scanSamples t.actual_arrival_time c (allSamples b), te.timestamp = x.timestamp := by
    rcases hwhere with h | ⟨cl, hcl, b2, hrep, hts⟩
    · exact Or.inl h
    · exact Or.inr ⟨b2, mem_clustersOf hcl b2 (clusterRep_mem hrep), hts⟩
  rcases mem_summarize hrc with ⟨t2, ht2, hrc2⟩ | hrc2 | ⟨cl, hcl, b0, hh, href2, hevd⟩
  · -- the marker delay root cause
    obtain rfl := Option.some_inj.mp ht2
    subst hrc2
    have heva : ev = t.actual_arrival_time := by
      simpa [markerRootCause] using hev
    rcases hdest with hdc | ⟨x, hx, hdx⟩
    · rw [hdc, heva]; exact hac
    · rw [hdx, heva]; exact (mem_scanSamples hx).1
  · -- the unexplained root cause carries no reference
    subst hrc2
    simp [unexplainedRootCause] at href
  · -- a cluster root cause
    unfold precedenceDecision at hprim
    by_cases hcond :
        (slaBreachedOf t.actual_arrival_time c && (((some t).map markerLate).getD false)) = true
    · rw [if_pos hcond] at hprim
      obtain rfl := Option.some_inj.mp hprim
      rw [href2] at href
      simp at href
    · rw [if_neg hcond] at hprim
      obtain ⟨e, he, hre⟩ := Option.map_eq_some'.mp hprim
      rw [href2] at href
      obtain hrinfra := Option.some_inj.mp href
      rw [← hre] at hrinfra
      obtain ⟨hdomeq, htseq⟩ := CauseRef.infra.inj hrinfra
      have hevts : ev = b0.timestamp := by
        rw [hevd] at hev
        exact List.mem_singleton.mp hev
      obtain ⟨hemem, hemin⟩ := earliestBreach_spec he
      rcases hdest with hdc | ⟨x, hx, hdx⟩
      · rw [hdc, hevts, htseq]
        exact (mem_scanSamples hemem).2
      · rw [hdx, hevts, htseq]
        exact hemin x hx

/-- Bundle of the infrastructure scenario: on-time trigger, job run 09:00 to
11:20, one critical relational storage sample and one critical queueing
sample inside the window. -/
def scenarioCBundle : RawBundle :=
  { trigger := some onTimeTrigger
    jobRuns := [{ run_id := "run-1", start_time := 540, end_time := some 680,
                  status := "success" }]
    eksSamples := []
    rdsSamples := [{ timestamp := 630, domain := .rds,
                     metric_name := "commit_latency", value := 192 }]
    sqsSamples := [{ timestamp := 630, domain := .sqs,
                     metric_name := "visible_messages", value := 1250 }] }

/-- C8 witness: the infrastructure scenario satisfies the hypotheses and the
no time travel conclusion holds on it. -/
theorem no_time_travel_witness :
    (scenarioCBundle.trigger = some onTimeTrigger ∧
      completionOf scenarioCBundle.jobRuns = some 680 ∧
      onTimeTrigger.actual_arrival_time ≤ 680) ∧
    (∀ rc ∈ (analyzeBundle scenarioCBundle).root_causes, ∀ ev ∈ rc.evidence,
      ∀ te ∈ (analyzeBundle scenarioCBundle).timeline, ∀ r,
        rc.ref = some r → te.impact = some r → ev ≤ te.timestamp) := by
  have h1 : scenarioCBundle.trigger = some onTimeTrigger := rfl
  have h2 : completionOf scenarioCBundle.jobRuns = some 680 := by decide
  have h3 : onTimeTrigger.actual_arrival_time ≤ (680 : ℤ) := by decide
  exact ⟨⟨h1, h2, h3⟩, no_time_travel h1 h2 h3⟩

end RcaTool
